import Mathlib

/-!
# Windows run-time environment of the LSM engine (`lsm_windows.c`)

A shallow embedding of the file, mapping, byte-range-lock, shared-memory,
allocator, open/close and file-identifier entry points of
`src/LSM.Test/lsm_windows.c`, with the Win32 calls they make modelled as pure
functions on an explicit operating-system state.

Conventions of the platform model:

* a kernel call on a handle that is `NULL` or `INVALID_HANDLE_VALUE` fails;
* calls that only inspect or move kernel bookkeeping (`GetFileSizeEx`,
  `SetFilePointerEx`, `ReadFile` on a synchronous disk file, `LockFileEx`,
  `UnlockFileEx`) are deterministic in that state;
* calls whose outcome depends on resources outside the state (disk space for
  `WriteFile` and `SetEndOfFile`, address space for `CreateFileMapping` and
  `MapViewOfFile`, heap allocations) take that outcome as an explicit argument;
* a function that can read or write through a null pointer returns an
  `Option`, and `none` is that dereference.
-/

namespace LsmWindows

/-! ## Result codes and basic types -/

/-- Modelled from the spec: the result codes of `lsm.h` (the header is not
part of the sources); `LSM_IOERR_BKPT` and `LSM_NOMEM_BKPT` evaluate to
`LSM_IOERR` and `LSM_NOMEM`. -/
inductive Rc where
  | LSM_OK
  | LSM_BUSY
  | LSM_NOMEM
  | LSM_IOERR
  | LSM_IOERR_NOENT
deriving DecidableEq, Repr

/-- One byte (`u8`). -/
abbrev Byte := Fin 256

/-- A caller-owned memory region, addressed by byte index. -/
abbrev Buffer := Nat → Byte

/-- The first `n` bytes of a buffer, as a byte string. -/
def bufferBytes (b : Buffer) (n : Nat) : List Byte :=
  (List.range n).map b

/-- Win32 `HANDLE`: the two distinguished non-handles, or a kernel object. -/
inductive HANDLE where
  | NULL
  | INVALID_HANDLE_VALUE
  | obj (id : Nat)
deriving DecidableEq, Repr

/-- Whether a handle designates a kernel object. -/
def HANDLE.isValid : HANDLE → Bool
  | HANDLE.obj _ => true
  | _ => false

/-- The file object behind an open handle: the bytes of the file (`content i`
is meaningful for `i < size`), the handle's file pointer and whether the
handle was opened with `GENERIC_WRITE`. -/
structure OsFile where
  size : Nat
  content : Nat → Byte
  pos : Nat
  canWrite : Bool

/-- The `struct WindowsFile`, the fields used by the file and mapping entry
points: `pMap = 0` is the null pointer. -/
structure WindowsFile where
  hFile : HANDLE
  bReadOnly : Bool
  pMap : Nat
  nMap : Int

/-! ## Win32 file calls -/

/-- Win32 `SetFilePointerEx(h, dist, &new, FILE_BEGIN)`: `none` when the call
returns FALSE (bad handle or negative target), else the new pointer, which
is also stored as the handle's file pointer. -/
def SetFilePointerEx (h : HANDLE) (f : OsFile) (liDistanceToMove : Int) :
    Option Int × OsFile :=
  if h.isValid && decide (0 ≤ liDistanceToMove) then
    (some liDistanceToMove, { f with pos := liDistanceToMove.toNat })
  else
    (none, f)

/-- Win32 `GetFileSizeEx(h, &size)`: `none` when the call returns FALSE. -/
def GetFileSizeEx (h : HANDLE) (f : OsFile) : Option Int :=
  if h.isValid then some (f.size : Int) else none

/-- Outcome of `WriteFile`: the BOOL result, `nWritten`, and the file. -/
structure WriteResult where
  success : Bool
  nWritten : Nat
  file : OsFile

/-- Win32 `WriteFile(h, pData, nData, &nWritten, NULL)`. `accepted = none` is a
failed call; `accepted = some k` lets the device take at most `k` bytes (a
short write when `k < nData`). Bytes go to the file pointer, a gap between
the old end of file and the pointer reads as zero, and the pointer advances
by the number of bytes written. -/
def WriteFile (h : HANDLE) (f : OsFile) (pData : List Byte) (nData : Nat)
    (accepted : Option Nat) : WriteResult :=
  match accepted with
  | none => { success := false, nWritten := 0, file := f }
  | some k =>
    if h.isValid && f.canWrite then
      let n := min nData k
      { success := true
        nWritten := n
        file :=
          { f with
            size := if n = 0 then f.size else max f.size (f.pos + n)
            content := fun i =>
              if f.pos ≤ i ∧ i < f.pos + n then pData.getD (i - f.pos) 0
              else if i < f.size then f.content i
              else 0
            pos := f.pos + n } }
    else
      { success := false, nWritten := 0, file := f }

/-- Outcome of `ReadFile`: the BOOL result, the byte count, the buffer and
the file. -/
structure ReadResult where
  success : Bool
  bData : Nat
  buf : Buffer
  file : OsFile

/-- Win32 `ReadFile(h, pData, nData, &bData, NULL)` on a synchronous disk file:
transfers the bytes between the file pointer and the end of file, at most
`nData` of them, leaves the rest of the buffer untouched and advances the
pointer. Reading at or past the end of file succeeds with zero bytes. -/
def ReadFile (h : HANDLE) (f : OsFile) (pData : Buffer) (nData : Nat) : ReadResult :=
  if h.isValid then
    let n := min nData (f.size - f.pos)
    { success := true
      bData := n
      buf := fun i => if i < n then f.content (f.pos + i) else pData i
      file := { f with pos := f.pos + n } }
  else
    { success := false, bData := 0, buf := pData, file := f }

/-- Win32 `SetEndOfFile(h)`: moves the end of file to the file pointer; `ok = false`
is a failed call (no space), which changes nothing. New bytes read as zero. -/
def SetEndOfFile (h : HANDLE) (f : OsFile) (ok : Bool) : Bool × OsFile :=
  if h.isValid && f.canWrite && ok then
    (true, { f with
              size := f.pos
              content := fun i => if i < f.size then f.content i else 0 })
  else
    (false, f)

/-- The call `memset(&pData[start], 0, n)`. -/
def memsetZero (pData : Buffer) (start n : Nat) : Buffer :=
  fun i => if start ≤ i ∧ i < start + n then 0 else pData i

/-! ## File entry points -/

/-- Source function `lsmWindowsOsWrite`: seek to `iOff`, write `nData` bytes; a failed seek,
a failed write or a short write is `LSM_IOERR`. The test after the seek
compares `liSize.QuadPart` (the requested offset itself) with `iOff`. -/
def lsmWindowsOsWrite (p : WindowsFile) (f : OsFile) (iOff : Int)
    (pData : List Byte) (nData : Nat) (accepted : Option Nat) : Rc × OsFile :=
  let liSize := iOff
  let s := SetFilePointerEx p.hFile f liSize
  if s.1.isSome && decide (liSize = iOff) then
    let w := WriteFile p.hFile s.2 pData nData accepted
    if w.success = false ∨ w.nWritten ≠ nData then
      (Rc.LSM_IOERR, w.file)
    else
      (Rc.LSM_OK, w.file)
  else
    (Rc.LSM_IOERR, s.2)

/-- Outcome of `lsmWindowsOsRead`: result code, buffer and file. -/
structure OsReadResult where
  rc : Rc
  buf : Buffer
  file : OsFile

/-- Source function `lsmWindowsOsRead`: seek to `iOff`, read up to `nData` bytes and zero the
part of the buffer the platform did not fill. -/
def lsmWindowsOsRead (p : WindowsFile) (f : OsFile) (iOff : Int)
    (pData : Buffer) (nData : Nat) : OsReadResult :=
  let s := SetFilePointerEx p.hFile f iOff
  if s.1 = some iOff then
    let r := ReadFile p.hFile s.2 pData nData
    if r.success = false then
      { rc := Rc.LSM_IOERR, buf := r.buf, file := r.file }
    else if r.bData < nData then
      { rc := Rc.LSM_OK, buf := memsetZero r.buf r.bData (nData - r.bData), file := r.file }
    else
      { rc := Rc.LSM_OK, buf := r.buf, file := r.file }
  else
    { rc := Rc.LSM_IOERR, buf := pData, file := s.2 }

/-- Source function `windowsSetFileSizeTo`: nothing to do when the size query succeeds and
the file already has `nSize` bytes or more; otherwise seek to `nSize` and move
the end of file there. `eofOk` is the outcome of `SetEndOfFile`. -/
def windowsSetFileSizeTo (hFile : HANDLE) (f : OsFile) (nSize : Int) (eofOk : Bool) :
    Rc × OsFile :=
  if (match GetFileSizeEx hFile f with
      | some liSize => decide (liSize ≥ nSize)
      | none => false) = true then
    (Rc.LSM_OK, f)
  else if hFile = HANDLE.NULL ∨ hFile = HANDLE.INVALID_HANDLE_VALUE then
    (Rc.LSM_IOERR, f)
  else
    let s := SetFilePointerEx hFile f nSize
    if s.1 = some nSize then
      let e := SetEndOfFile hFile s.2 eofOk
      if e.1 ≠ true then (Rc.LSM_IOERR, e.2) else (Rc.LSM_OK, e.2)
    else
      (Rc.LSM_IOERR, s.2)

/-- Source function `lsmWindowsOsTruncate`: set the file size through `windowsSetFileSizeTo`. -/
def lsmWindowsOsTruncate (p : WindowsFile) (f : OsFile) (nSize : Int) (eofOk : Bool) :
    Rc × OsFile :=
  windowsSetFileSizeTo p.hFile f nSize eofOk

/-! ## C integer arithmetic used by the mapping code -/

/-- The 64 bits of a two's-complement `lsm_i64`, as an unsigned number. -/
def toU64 (x : Int) : Nat :=
  (x % 2 ^ 64).toNat

/-- The `lsm_i64` denoted by 64 bits. -/
def ofU64 (n : Nat) : Int :=
  if n < 2 ^ 63 then (n : Int) else (n : Int) - 2 ^ 64

/-- Bitwise `a & b` on 64-bit operands (an `int` operand is sign-extended by
the usual arithmetic conversions, which leaves its value unchanged). -/
def and64 (a b : Int) : Int :=
  ofU64 (toU64 a &&& toU64 b)

/-- Bitwise `~a` on a two's-complement integer. -/
def bitNot (a : Int) : Int :=
  -a - 1

/-- Conversion of an integer value to the 32-bit `int` (it wraps, as signed
`int` arithmetic does on this target). -/
def toInt32 (x : Int) : Int :=
  (x + 2 ^ 31) % 2 ^ 32 - 2 ^ 31

/-- Field `LARGE_INTEGER.LowPart`: the low 32 bits, unsigned. -/
def LowPart (x : Int) : Nat :=
  (x % 2 ^ 32).toNat

/-- Field `LARGE_INTEGER.HighPart` passed as a `DWORD`: bits 32..63, unsigned. -/
def HighPart (x : Int) : Nat :=
  ((x / 2 ^ 32) % 2 ^ 32).toNat

/-! ## Win32 mapping calls -/

/-- Win32 `CreateFileMapping(h, NULL, prot, sizeHigh, sizeLow, NULL)`, returning the
size of the mapping object (`none` for a NULL result) and the file. A zero
size means the current file size and fails on an empty file; a size above the
file size extends the file when the protection is `PAGE_READWRITE` and fails
when it is `PAGE_READONLY`; `PAGE_READWRITE` needs a handle with write
access. `ok = false` is a failed call. -/
def CreateFileMapping (h : HANDLE) (f : OsFile) (readOnly : Bool)
    (dwMaximumSizeHigh dwMaximumSizeLow : Nat) (ok : Bool) : Option Nat × OsFile :=
  let maxSize := dwMaximumSizeHigh * 2 ^ 32 + dwMaximumSizeLow
  if h.isValid && ok && (readOnly || f.canWrite) then
    if maxSize = 0 then
      if f.size = 0 then (none, f) else (some f.size, f)
    else if maxSize ≤ f.size then
      (some maxSize, f)
    else if readOnly then
      (none, f)
    else
      (some maxSize,
        { f with
          size := maxSize
          content := fun i => if i < f.size then f.content i else 0 })
  else
    (none, f)

/-- Win32 `MapViewOfFile(hMap, access, 0, 0, n)` on a mapping object of `mapSize`
bytes: `view` is the address the system picks, `0` when it cannot map (a
NULL result); a request beyond the mapping object fails. -/
def MapViewOfFile (mapSize : Nat) (dwNumberOfBytesToMap : Nat) (view : Nat) : Nat :=
  if dwNumberOfBytesToMap ≤ mapSize then view else 0

/-- Outcomes of the resource-dependent calls made by `lsmWindowsOsRemap`. -/
structure RemapEnv where
  eofOk : Bool
  mappingOk : Bool
  view : Nat

/-- Everything `lsmWindowsOsRemap` leaves behind: the result code, the output
parameters `*ppOut` and `*pnOut`, the handle record and the file. -/
structure RemapResult where
  rc : Rc
  ppOut : Nat
  pnOut : Int
  p : WindowsFile
  file : OsFile

/-- The constant `const int nBitExtensionMask = ((2 << 20) - 1)`. -/
def nBitExtensionMask : Int :=
  ((2 <<< 20 : Nat) : Int) - 1

/-- The `int extendSize` computed by `lsmWindowsOsRemap` for a request of
`iMin` bytes. -/
def extendSize (iMin : Int) : Int :=
  let e := toInt32 (and64 iMin (bitNot nBitExtensionMask))
  if and64 iMin nBitExtensionMask > 0 then toInt32 (e + nBitExtensionMask + 1) else e

/-- Source function `lsmWindowsOsRemap`: drop the previous view, query the size, reject
`iMin ≤ 0`, extend a file smaller than `iMin` to `extendSize`, create the
mapping object and map the view. -/
def lsmWindowsOsRemap (p : WindowsFile) (f : OsFile) (iMin : Int) (env : RemapEnv) :
    RemapResult :=
  let p1 : WindowsFile := if p.pMap ≠ 0 then { p with nMap := 0, pMap := 0 } else p
  match GetFileSizeEx p1.hFile f with
  | none => { rc := Rc.LSM_IOERR, ppOut := 0, pnOut := 0, p := p1, file := f }
  | some sz =>
    if iMin ≤ 0 then
      { rc := Rc.LSM_IOERR, ppOut := 0, pnOut := 0, p := p1, file := f }
    else
      let ext : Rc × OsFile × Int :=
        if sz < iMin then
          let r := windowsSetFileSizeTo p1.hFile f (extendSize iMin) env.eofOk
          (r.1, r.2, extendSize iMin)
        else
          (Rc.LSM_OK, f, sz)
      if ext.1 ≠ Rc.LSM_OK then
        { rc := ext.1, ppOut := 0, pnOut := 0, p := p1, file := ext.2.1 }
      else
        let nSz := ext.2.2
        let m := CreateFileMapping p1.hFile ext.2.1 p1.bReadOnly (HighPart nSz) (LowPart nSz)
          env.mappingOk
        match m.1 with
        | none => { rc := Rc.LSM_IOERR, ppOut := 0, pnOut := 0, p := p1, file := m.2 }
        | some mapSize =>
          let p2 : WindowsFile := { p1 with nMap := nSz }
          let p3 : WindowsFile :=
            { p2 with pMap := MapViewOfFile mapSize (LowPart p2.nMap) env.view }
          if p3.pMap = 0 then
            { rc := Rc.LSM_IOERR, ppOut := 0, pnOut := 0, p := p3, file := m.2 }
          else
            { rc := Rc.LSM_OK, ppOut := p3.pMap, pnOut := p3.nMap, p := p3, file := m.2 }

/-- The smallest multiple of 2 MiB (`2 ^ 21`) that is at least `n`. -/
def roundUp2MiB (n : Int) : Int :=
  (n + (2 ^ 21 - 1)) / 2 ^ 21 * 2 ^ 21

/-! ## Byte-range locks -/

/-- One byte-range lock in the kernel's table for a file: the handle it was
taken through, the first byte, the number of bytes, and whether it is
exclusive. -/
structure ByteLock where
  owner : HANDLE
  offset : Nat
  length : Nat
  exclusive : Bool
deriving DecidableEq, Repr

/-- The byte-range locks currently held on one file, most recent first. -/
abbrev LockTable := List ByteLock

/-- Whether a lock shares a byte with the range of `length` bytes at `offset`. -/
def ByteLock.overlaps (l : ByteLock) (offset length : Nat) : Bool :=
  decide (l.offset < offset + length) && decide (offset < l.offset + l.length)

/-- Win32 `LockFileEx(h, LOCKFILE_FAIL_IMMEDIATELY [| LOCKFILE_EXCLUSIVE_LOCK], 0,
nBytes, 0, &ov)` with `ov.Offset = offset`. As documented for Win32: an
exclusive lock cannot overlap any locked region; a shared lock can overlap
shared locks, and can overlap an exclusive lock only when both are taken
through the same handle. -/
def LockFileEx (h : HANDLE) (exclusive : Bool) (offset nBytes : Nat) (t : LockTable) :
    Bool × LockTable :=
  if h.isValid &&
      !(t.any fun l =>
          l.overlaps offset nBytes && (exclusive || (l.exclusive && decide (l.owner ≠ h)))) then
    (true, { owner := h, offset := offset, length := nBytes, exclusive := exclusive } :: t)
  else
    (false, t)

/-- Win32 `UnlockFileEx(h, 0, nBytes, 0, &ov)` with `ov.Offset = offset`: releases
one lock taken through `h` on exactly this range, and fails when there is
none. As documented for Win32, when the range is locked both exclusively and
shared the exclusive lock is the one released first. -/
def UnlockFileEx (h : HANDLE) (offset nBytes : Nat) (t : LockTable) : Bool × LockTable :=
  if ({ owner := h, offset := offset, length := nBytes, exclusive := true } : ByteLock) ∈ t then
    (true, t.erase { owner := h, offset := offset, length := nBytes, exclusive := true })
  else if
    ({ owner := h, offset := offset, length := nBytes, exclusive := false } : ByteLock) ∈ t then
    (true, t.erase { owner := h, offset := offset, length := nBytes, exclusive := false })
  else
    (false, t)

/-- Modelled from the spec: the lock modes `LSM_LOCK_UNLOCK`, `LSM_LOCK_SHARED`
and `LSM_LOCK_EXCL` of `lsm.h` (the header is not part of the sources). -/
inductive LockType where
  | LSM_LOCK_UNLOCK
  | LSM_LOCK_SHARED
  | LSM_LOCK_EXCL
deriving DecidableEq, Repr

/-- The assignment `sOverlapped.Offset = 4096 - iLock`, stored in a `DWORD`. -/
def lockOffset (iLock : Int) : Nat :=
  ((4096 - iLock) % 2 ^ 32).toNat

/-- A `DWORD` argument given an `int`. -/
def toDWORD (n : Int) : Nat :=
  (n % 2 ^ 32).toNat

/-- Source function `lsmWindowsOsLock`: unlock, or try to take a shared or exclusive lock on
the single byte at `4096 - iLock`. The per-handle mutex taken around the
platform call orders calls of different threads and has no effect on a
sequential run; `assert(iLock > 0 && iLock <= 32)` is the caller's duty. -/
def lsmWindowsOsLock (p : WindowsFile) (iLock : Int) (eType : LockType) (t : LockTable) :
    Rc × LockTable :=
  if eType = LockType.LSM_LOCK_UNLOCK then
    let u := UnlockFileEx p.hFile (lockOffset iLock) 1 t
    if u.1 then (Rc.LSM_OK, u.2) else (Rc.LSM_IOERR, u.2)
  else
    let l := LockFileEx p.hFile (decide (eType = LockType.LSM_LOCK_EXCL)) (lockOffset iLock) 1 t
    if l.1 then (Rc.LSM_OK, l.2) else (Rc.LSM_BUSY, l.2)

/-- The byte range `lsmWindowsOsTestLock` hands to `LockFileEx`: first byte
`4096 - iLock`, `nLock` bytes. -/
def testLockRange (iLock nLock : Int) : Nat × Nat :=
  (lockOffset iLock, toDWORD nLock)

/-- Source function `lsmWindowsOsTestLock`: try a lock with flags `LOCKFILE_FAIL_IMMEDIATELY`
alone (a shared lock, whatever `eType` is) on `nLock` bytes from
`4096 - iLock`; when it is granted, unlock the same range and report `LSM_OK`,
otherwise report `LSM_BUSY`. The result of `UnlockFileEx` is not inspected. -/
def lsmWindowsOsTestLock (p : WindowsFile) (iLock nLock : Int) (_eType : LockType)
    (t : LockTable) : Rc × LockTable :=
  let r := testLockRange iLock nLock
  let l := LockFileEx p.hFile false r.1 r.2 t
  if l.1 then
    (Rc.LSM_OK, (UnlockFileEx p.hFile r.1 r.2 l.2).2)
  else
    (Rc.LSM_BUSY, l.2)

/-- The bytes covered by the range `lsmWindowsOsTestLock` probes. -/
def probedBytes (iLock nLock : Int) : List Nat :=
  List.range' (testLockRange iLock nLock).1 (testLockRange iLock nLock).2

/-- The bytes `lsmWindowsOsLock` uses for the `nLock` slots `iLock`,
`iLock + 1`, ..., `iLock + nLock - 1`. -/
def slotBytes (iLock : Int) (nLock : Nat) : List Nat :=
  (List.range nLock).map fun (k : Nat) => lockOffset (iLock + (k : Int))

/-! ## Shared memory -/

/-- The `struct SharedMemorySegment`: the mapped address and the size; the
`next` link is the position in the list below. -/
structure SharedMemorySegment where
  pSegment : Nat
  nSize : Int
deriving DecidableEq, Repr

/-- The `struct SharedMemoryFile`: the segments in request order, the tracked
size of the companion file and the handle to it. -/
structure SharedMemoryFile where
  pSegRoot : List SharedMemorySegment
  nSizeSharedMemory : Int
  hFile : HANDLE
deriving DecidableEq, Repr

/-- The whole `struct WindowsFile`: the fields of `WindowsFile` with the wide
path (`none` is a null pointer, the value is its length in characters), the
lock mutex and the shared-memory record (`none` is a null pointer). -/
structure WindowsFileRec extends WindowsFile where
  zName : Option Nat
  hFileLockMutex : HANDLE
  pShm : Option SharedMemoryFile

/-- Source function `sharedMemorySegmentListAppend`: a null root gives the new
node, otherwise the node is linked after the last one. -/
def sharedMemorySegmentListAppend (root : List SharedMemorySegment)
    (v : SharedMemorySegment) : List SharedMemorySegment :=
  match root with
  | [] => [v]
  | r :: rest => (r :: rest) ++ [v]

/-- Source function `lsmWindowsSharedMemoryFileName`: the length of the
companion name (the original length plus `nPostfixSize = 5`), or `0` when a
target is given whose size is below that. -/
def lsmWindowsSharedMemoryFileName (originalLength : Nat) (hasTarget : Bool)
    (targetBufferSize : Int) : Int :=
  if hasTarget = false then
    (originalLength : Int) + 5
  else if targetBufferSize < (originalLength : Int) + 5 then
    0
  else
    (originalLength : Int) + 5

/-- Source function `windowsOpenShmFile`: build the companion name and open
the companion file with `CreateFile2(..., OPEN_ALWAYS, ...)`. `nameOk` is the
outcome of the name allocation, `opened` the object `CreateFile2` yields
(`none` for `INVALID_HANDLE_VALUE`). The result is `none` when a null pointer
is dereferenced: a null `zName` or `pShm`, or the `memset` of a failed
allocation. -/
def windowsOpenShmFile (p : WindowsFileRec) (shm : OsFile) (nameOk : Bool)
    (opened : Option Nat) : Option (Rc × WindowsFileRec × OsFile) :=
  match p.zName, p.pShm with
  | some len, some s =>
    let shFileNameLength := lsmWindowsSharedMemoryFileName len false 0
    if nameOk = false then
      none
    else if shFileNameLength ≠ lsmWindowsSharedMemoryFileName len true shFileNameLength then
      some (Rc.LSM_IOERR, p, shm)
    else
      match opened with
      | none =>
        some (Rc.LSM_IOERR,
          { p with pShm := some { s with hFile := HANDLE.INVALID_HANDLE_VALUE } }, shm)
      | some id =>
        some (Rc.LSM_OK, { p with pShm := some { s with hFile := HANDLE.obj id } },
          { shm with pos := 0, canWrite := true })
  | _, _ => none

/-- Win32 `MapViewOfFile(hMap, access, offHigh, offLow, n)` on a mapping
object of `mapSize` bytes: `view` is the address the system picks, `0` when
it cannot map at that offset (a NULL result); a view that reaches beyond the
mapping object fails. -/
def MapViewOfFileAt (mapSize : Nat) (dwFileOffsetHigh dwFileOffsetLow : Nat)
    (dwNumberOfBytesToMap : Nat) (view : Nat) : Nat :=
  if dwFileOffsetHigh * 2 ^ 32 + dwFileOffsetLow + dwNumberOfBytesToMap ≤ mapSize then view
  else 0

/-- Outcomes of the resource-dependent calls made by `lsmWindowsOsShmMap`. -/
structure ShmMapEnv where
  nameOk : Bool
  opened : Option Nat
  eofOk : Bool
  segOk : Bool
  mappingOk : Bool
  view : Nat

/-- Everything `lsmWindowsOsShmMap` leaves behind: the result code, `*ppShm`,
the handle record and the companion file. -/
structure ShmMapResult where
  rc : Rc
  ppShm : Nat
  p : WindowsFileRec
  shm : OsFile

/-- Source function `lsmWindowsOsShmMap`, for a chunk-size constant
`LSM_SHM_CHUNK_SIZE` of type `int` (the header that defines it is not part of
the sources): the chunk offset is the `int` product
`chunkIndex * LSM_SHM_CHUNK_SIZE`; the companion file is opened on first use,
grown to `max(2 * size, offset + chunkSize)` when the chunk's end reaches the
tracked size, and the chunk is mapped and appended to the segment list. The
result is `none` when a null pointer is dereferenced. -/
def lsmWindowsOsShmMap (LSM_SHM_CHUNK_SIZE : Int) (p : WindowsFileRec) (shm : OsFile)
    (chunkIndex chunkSize : Int) (env : ShmMapEnv) : Option ShmMapResult :=
  let chunkOffset : Int := toInt32 (chunkIndex * LSM_SHM_CHUNK_SIZE)
  match p.pShm with
  | none => none
  | some s0 =>
    let o : Option (Rc × WindowsFileRec × OsFile) :=
      if s0.hFile = HANDLE.NULL ∨ s0.hFile = HANDLE.INVALID_HANDLE_VALUE then
        windowsOpenShmFile p shm env.nameOk env.opened
      else
        some (Rc.LSM_OK, p, shm)
    match o with
    | none => none
    | some (err, p1, shm1) =>
      if err ≠ Rc.LSM_OK then
        some { rc := err, ppShm := 0, p := p1, shm := shm1 }
      else
        match p1.pShm with
        | none => none
        | some s1 =>
          let newSize : Int :=
            if s1.nSizeSharedMemory * 2 < chunkOffset + chunkSize then chunkOffset + chunkSize
            else s1.nSizeSharedMemory * 2
          let g : Rc × SharedMemoryFile × OsFile :=
            if chunkOffset + chunkSize ≥ s1.nSizeSharedMemory then
              let r := windowsSetFileSizeTo s1.hFile shm1 newSize env.eofOk
              if r.1 ≠ Rc.LSM_OK then (Rc.LSM_IOERR, s1, r.2)
              else (Rc.LSM_OK, { s1 with nSizeSharedMemory := newSize }, r.2)
            else
              (Rc.LSM_OK, s1, shm1)
          let s2 := g.2.1
          let p2 : WindowsFileRec := { p1 with pShm := some s2 }
          if g.1 ≠ Rc.LSM_OK then
            some { rc := Rc.LSM_IOERR, ppShm := 0, p := p2, shm := g.2.2 }
          else if env.segOk = false then
            some { rc := Rc.LSM_NOMEM, ppShm := 0, p := p2, shm := g.2.2 }
          else
            let m := CreateFileMapping s2.hFile g.2.2 false (HighPart s2.nSizeSharedMemory)
              (LowPart s2.nSizeSharedMemory) env.mappingOk
            match m.1 with
            | none => some { rc := Rc.LSM_IOERR, ppShm := 0, p := p2, shm := m.2 }
            | some mapSize =>
              let seg : SharedMemorySegment :=
                { pSegment := MapViewOfFileAt mapSize (HighPart chunkOffset)
                    (LowPart chunkOffset) (toDWORD chunkSize) env.view
                  nSize := chunkSize }
              if seg.pSegment = 0 then
                some { rc := Rc.LSM_NOMEM, ppShm := 0, p := p2, shm := m.2 }
              else
                some
                  { rc := Rc.LSM_OK
                    ppShm := seg.pSegment
                    p := { p2 with
                           pShm := some
                             { s2 with
                               pSegRoot := sharedMemorySegmentListAppend s2.pSegRoot seg } }
                    shm := m.2 }

/-- The tracked companion-file size `p->pShm->nSizeSharedMemory` (0 when there
is no shared-memory record). -/
def trackedSize (p : WindowsFileRec) : Int :=
  match p.pShm with
  | some s => s.nSizeSharedMemory
  | none => 0

/-- One request of a run of `lsmWindowsOsShmMap` calls. -/
structure ShmCall where
  chunkIndex : Int
  env : ShmMapEnv

/-- A run of `lsmWindowsOsShmMap` calls on one handle, all with
`chunkSize = LSM_SHM_CHUNK_SIZE`: the final handle record and companion file
with the chunk indices of the calls that returned `LSM_OK`, or `none` when a
call dereferences a null pointer. -/
def shmMapRun (LSM_SHM_CHUNK_SIZE : Int) (p : WindowsFileRec) (shm : OsFile) :
    List ShmCall → Option (WindowsFileRec × OsFile × List Int)
  | [] => some (p, shm, [])
  | c :: cs =>
    match lsmWindowsOsShmMap LSM_SHM_CHUNK_SIZE p shm c.chunkIndex LSM_SHM_CHUNK_SIZE c.env with
    | none => none
    | some r =>
      match shmMapRun LSM_SHM_CHUNK_SIZE r.p r.shm cs with
      | none => none
      | some (p', shm', mapped) =>
        some (p', shm', if r.rc = Rc.LSM_OK then c.chunkIndex :: mapped else mapped)

/-- A handle record as `lsmWindowsOsOpen` leaves it: no view, and a zeroed
shared-memory record (no segments, tracked size 0, no companion handle). -/
def freshHandle (hFile : HANDLE) (nameLength : Nat) : WindowsFileRec :=
  { hFile := hFile, bReadOnly := false, pMap := 0, nMap := 0
    zName := some nameLength, hFileLockMutex := HANDLE.obj 0
    pShm := some { pSegRoot := [], nSizeSharedMemory := 0, hFile := HANDLE.NULL } }

/-! ## Allocator -/

/-- The block headers in memory: the `sqlite4_size_t` stored at an address. -/
abbrev HeaderStore := Nat → Int

/-- Source function `lsmWindowsOsMalloc` for a header of `BLOCK_HDR_SIZE`
bytes (the macro `ROUND8` and the type `sqlite4_size_t` it is built from are
not part of the sources): `N += BLOCK_HDR_SIZE`, a block of `N` bytes is
taken from `malloc` at address `m`, `N` is stored at its start and
`m + BLOCK_HDR_SIZE` is returned. With `m = 0` (a failed `malloc`) the store
goes through a null pointer: `none`. -/
def lsmWindowsOsMalloc (BLOCK_HDR_SIZE : Nat) (mem : HeaderStore) (N : Int) (m : Nat) :
    Option (Nat × HeaderStore) :=
  let N1 := toInt32 (N + (BLOCK_HDR_SIZE : Int))
  if m = 0 then none
  else some (m + BLOCK_HDR_SIZE, fun a => if a = m then N1 else mem a)

/-- Source function `lsmWindowsOsRealloc`: `N < 1` frees and returns NULL, a
null `p` is `lsmWindowsOsMalloc`, otherwise the block is resized by `realloc`
to the address `re` (`0` on failure) and `N` is stored at its start. -/
def lsmWindowsOsRealloc (BLOCK_HDR_SIZE : Nat) (mem : HeaderStore) (p : Nat) (N : Int)
    (re : Nat) : Option (Nat × HeaderStore) :=
  if 1 > N then some (0, mem)
  else if p = 0 then lsmWindowsOsMalloc BLOCK_HDR_SIZE mem N re
  else if re ≠ 0 then some (re + BLOCK_HDR_SIZE, fun a => if a = re then N else mem a)
  else some (0, mem)

/-- Source function `lsmWindowsOsMSize`: the `sqlite4_size_t` stored
`BLOCK_HDR_SIZE` bytes before `p`. -/
def lsmWindowsOsMSize (BLOCK_HDR_SIZE : Nat) (mem : HeaderStore) (p : Nat) : Int :=
  mem (p - BLOCK_HDR_SIZE)

/-! ## Opening and closing a handle -/

/-- What `lsmWindowsOsOpen` acquires: the two heap records, the converted
path, the file object, the copy of the name and the lock mutex. -/
inductive Resource where
  | handleRecord
  | shmRecord
  | zName
  | osFile
  | nameCopy
  | lockMutex
deriving DecidableEq, Repr

/-- Outcomes of the calls made by `lsmWindowsOsOpen`, in the order it makes
them; `fileNotFound` is `GetLastError() == ERROR_FILE_NOT_FOUND` after a failed
`CreateFile2`. -/
structure OpenEnv where
  recordOk : Bool
  shmOk : Bool
  zNameOk : Bool
  fileOk : Bool
  fileNotFound : Bool
  nameCopyOk : Bool
  mutexOk : Bool

/-- Source function `lsmWindowsOsOpen`, on the list of live resources: an
allocation or creation that succeeds adds its resource, `lsm_free` and
`CloseHandle` remove theirs. The record `pShm` is handed to `memset` without
a null test, so a failed allocation of it is a null dereference: `none`. -/
def lsmWindowsOsOpen (env : OpenEnv) (live : List Resource) : Option (Rc × List Resource) :=
  if env.recordOk = false then
    some (Rc.LSM_NOMEM, live)
  else
    let l1 := Resource.handleRecord :: live
    if env.shmOk = false then
      none
    else
      let l2 := Resource.shmRecord :: l1
      if env.zNameOk = false then
        some (Rc.LSM_NOMEM, l2)
      else
        let l3 := Resource.zName :: l2
        if env.fileOk = false then
          some (if env.fileNotFound then Rc.LSM_IOERR_NOENT else Rc.LSM_IOERR,
            l3.erase Resource.handleRecord)
        else
          let l4 := Resource.osFile :: l3
          if env.nameCopyOk = false then
            some (Rc.LSM_NOMEM,
              ((l4.erase Resource.osFile).erase Resource.zName).erase Resource.handleRecord)
          else
            let l5 := Resource.nameCopy :: l4
            let l6 := (if env.mutexOk then Resource.lockMutex :: l5 else l5).erase
              Resource.nameCopy
            if env.mutexOk = false then
              some (Rc.LSM_IOERR,
                ((l6.erase Resource.osFile).erase Resource.zName).erase Resource.handleRecord)
            else
              some (Rc.LSM_OK, l6)

/-- Source function `sharedMemorySegmentListDelete` as `lsmWindowsOsShmUnmap`
calls it, with the root as the node to delete: the rest of the list and the
`removed` flag. -/
def sharedMemorySegmentListDelete (root : List SharedMemorySegment) :
    List SharedMemorySegment × Int :=
  match root with
  | [] => ([], 0)
  | _ :: rest => (rest, 1)

/-- The loop of `lsmWindowsOsShmUnmap`: while the root is not null, delete it
from the list, unmap its view and free it. -/
def unmapSegments : List SharedMemorySegment → List SharedMemorySegment
  | [] => []
  | _ :: rest => unmapSegments rest

/-- Source function `lsmWindowsOsShmUnmap`: unmap and free every segment,
close the companion handle, zero the tracked size, and delete the companion
file when `bDelete` is set (`nameOk` and `deleteOk` are the outcomes of the
name allocation and of `DeleteFile`). The result is `none` when a null
pointer is dereferenced: `p->zName` by `wcslen`, or `p->pShm`. -/
def lsmWindowsOsShmUnmap (p : WindowsFileRec) (bDelete : Bool) (nameOk deleteOk : Bool) :
    Option (Rc × WindowsFileRec) :=
  match p.zName with
  | none => none
  | some _ =>
    match p.pShm with
    | none => none
    | some s =>
      let s1 : SharedMemoryFile := { s with pSegRoot := unmapSegments s.pSegRoot }
      let s2 : SharedMemoryFile :=
        if s1.hFile ≠ HANDLE.NULL ∧ s1.hFile ≠ HANDLE.INVALID_HANDLE_VALUE then
          { s1 with hFile := HANDLE.NULL }
        else s1
      let p1 : WindowsFileRec := { p with pShm := some { s2 with nSizeSharedMemory := 0 } }
      if bDelete then
        if nameOk = false then some (Rc.LSM_NOMEM, p1)
        else some (if deleteOk then Rc.LSM_OK else Rc.LSM_IOERR, p1)
      else
        some (Rc.LSM_OK, p1)

/-- Source function `lsmWindowsOsClose`: `lsmWindowsOsShmUnmap(pFile, 0)`
first, then the view, the file handle and the shared-memory record, each
behind its null test; the record returned is the one handed to the final
`lsm_free`. The result is `none` when a null pointer is dereferenced. -/
def lsmWindowsOsClose (p : WindowsFileRec) : Option (Rc × WindowsFileRec) :=
  match lsmWindowsOsShmUnmap p false true true with
  | none => none
  | some (_, p1) =>
    let p2 : WindowsFileRec := if p1.pMap ≠ 0 then { p1 with pMap := 0 } else p1
    let p3 : WindowsFileRec :=
      if p2.hFile ≠ HANDLE.NULL ∧ p2.hFile ≠ HANDLE.INVALID_HANDLE_VALUE then
        { p2 with hFile := HANDLE.NULL }
      else p2
    let p4 : WindowsFileRec := if p3.pShm.isSome then { p3 with pShm := none } else p3
    some (Rc.LSM_OK, p4)

/-! ## File identifier -/

/-- The `n` bytes of the little-endian representation of `v`. -/
def leBytes (v n : Nat) : List Byte :=
  (List.range n).map fun (k : Nat) => (Fin.ofNat (v / 256 ^ k) : Fin 256)

/-- The `int` stored in the first four bytes of a memory region. -/
def readInt32 (mem : Buffer) : Int :=
  toInt32 (((mem 0).val + (mem 1).val * 256 + (mem 2).val * 256 ^ 2 + (mem 3).val * 256 ^ 3
    : Nat) : Int)

/-- Storing an `int` in the first four bytes of a memory region. -/
def writeInt32 (mem : Buffer) (v : Int) : Buffer :=
  fun i => if i < 4 then (leBytes (toDWORD v) 4).getD i 0 else mem i

/-- The value of a `HANDLE` of `sizeofHANDLE` bytes: `NULL` is 0,
`INVALID_HANDLE_VALUE` is all ones, a kernel object is its number. -/
def handleBits (sizeofHANDLE : Nat) : HANDLE → Nat
  | HANDLE.NULL => 0
  | HANDLE.INVALID_HANDLE_VALUE => 256 ^ sizeofHANDLE - 1
  | HANDLE.obj id => id

/-- Source function `lsmWindowsOsFileid`, for a `HANDLE` of `sizeofHANDLE`
bytes, on the caller's buffer `pBuf` (`none` is a null pointer) and the memory
at `pnBuf`, whose first four bytes are the `int` `*pnBuf`: the old `*pnBuf` is
read, `sizeof(HANDLE)` is stored in `*pnBuf`, and with a non-null `pBuf` the
call `memcpy_s(pnBuf, nSize, &p->hFile, sizeof(HANDLE))` copies the bytes of
the handle to the address `pnBuf`. A destination size below the count makes
`memcpy_s` raise its invalid-parameter error: `none`. -/
def lsmWindowsOsFileid (sizeofHANDLE : Nat) (p : WindowsFile) (pBuf : Option Buffer)
    (pnBuf : Buffer) : Option (Rc × Option Buffer × Buffer) :=
  let nSize := readInt32 pnBuf
  let m1 := writeInt32 pnBuf (sizeofHANDLE : Int)
  match pBuf with
  | none => some (Rc.LSM_OK, none, m1)
  | some b =>
    if 0 ≤ nSize ∧ nSize < (sizeofHANDLE : Int) then
      none
    else
      some (Rc.LSM_OK, some b,
        fun i =>
          if i < sizeofHANDLE then (leBytes (handleBits sizeofHANDLE p.hFile) sizeofHANDLE).getD i 0
          else m1 i)

/-! ## Theorems -/

theorem SetFilePointerEx_some (h : HANDLE) (f : OsFile) (d : Int) (x : Int)
    (hs : (SetFilePointerEx h f d).1 = some x) :
    h.isValid = true ∧ 0 ≤ d ∧ x = d := by
  unfold SetFilePointerEx at hs
  by_cases hc : (h.isValid && decide (0 ≤ d)) = true
  · rw [if_pos hc] at hs
    simp only [Bool.and_eq_true, decide_eq_true_eq] at hc
    simp only [Option.some.injEq] at hs
    exact ⟨hc.1, hc.2, hs.symm⟩
  · rw [if_neg hc] at hs
    exact absurd hs (by simp)

theorem SetFilePointerEx_valid (h : HANDLE) (f : OsFile) (d : Int)
    (hv : h.isValid = true) (hd : 0 ≤ d) :
    SetFilePointerEx h f d = (some d, { f with pos := d.toNat }) := by
  unfold SetFilePointerEx
  rw [if_pos (by simp [hv, hd])]

theorem lsmWindowsOsRead_valid (p : WindowsFile) (f : OsFile) (off : Nat)
    (pData : Buffer) (nData : Nat) (hv : p.hFile.isValid = true) :
    (lsmWindowsOsRead p f (off : Int) pData nData).rc = Rc.LSM_OK ∧
    ∀ i, i < nData →
      (lsmWindowsOsRead p f (off : Int) pData nData).buf i
        = if off + i < f.size then f.content (off + i) else 0 := by
  unfold lsmWindowsOsRead
  rw [SetFilePointerEx_valid _ _ _ hv (Int.ofNat_nonneg off)]
  simp only [if_true, ReadFile, hv, Int.toNat_ofNat, Bool.true_eq_false, if_false]
  constructor
  · split <;> rfl
  · intro i hi
    have hmin := Nat.min_le_right nData (f.size - off)
    have hmin2 := Nat.min_le_left nData (f.size - off)
    by_cases hlt : min nData (f.size - off) < nData
    · rw [if_pos hlt]
      simp only [memsetZero]
      by_cases h1 : off + i < f.size
      · have h2 : i < min nData (f.size - off) := by
          rw [Nat.lt_min]; omega
        have h3 : ¬ (min nData (f.size - off) ≤ i ∧
            i < min nData (f.size - off) + (nData - min nData (f.size - off))) := by omega
        rw [if_neg h3, if_pos h2, if_pos h1]
      · have h2 : min nData (f.size - off) ≤ i ∧
            i < min nData (f.size - off) + (nData - min nData (f.size - off)) := by
          have : f.size - off ≤ i := by omega
          omega
        rw [if_pos h2, if_neg h1]
    · rw [if_neg hlt]
      have h2 : i < min nData (f.size - off) := by omega
      have h1 : off + i < f.size := by omega
      simp only [h2, if_true, h1]

/-- C2: when the seek and the platform read succeed, `lsmWindowsOsRead`
returns `LSM_OK` and every one of the `nData` buffer bytes is defined: byte
`i` is the file's byte at `off + i` below the end of file and zero at or
past it. -/
theorem lsmWindowsOsRead_zero_fills (p : WindowsFile) (f : OsFile) (off : Nat)
    (pData : Buffer) (nData : Nat)
    (hseek : (SetFilePointerEx p.hFile f (off : Int)).1 = some (off : Int))
    (_hread : (ReadFile p.hFile (SetFilePointerEx p.hFile f (off : Int)).2 pData nData).success
      = true) :
    (lsmWindowsOsRead p f (off : Int) pData nData).rc = Rc.LSM_OK ∧
    ∀ i, i < nData →
      (lsmWindowsOsRead p f (off : Int) pData nData).buf i
        = if off + i < f.size then f.content (off + i) else 0 :=
  lsmWindowsOsRead_valid p f off pData nData (SetFilePointerEx_some _ _ _ _ hseek).1

theorem lsmWindowsOsRead_zero_fills_witness :
    (lsmWindowsOsRead ⟨HANDLE.obj 1, false, 0, 0⟩ ⟨2, fun _ => 7, 0, true⟩ ((1 : Nat) : Int)
        (fun _ => 9) 3).rc = Rc.LSM_OK ∧
    ∀ i, i < 3 →
      (lsmWindowsOsRead ⟨HANDLE.obj 1, false, 0, 0⟩ ⟨2, fun _ => 7, 0, true⟩ ((1 : Nat) : Int)
        (fun _ => 9) 3).buf i
        = if 1 + i < (⟨2, fun _ => 7, 0, true⟩ : OsFile).size
          then (⟨2, fun _ => 7, 0, true⟩ : OsFile).content (1 + i) else 0 :=
  lsmWindowsOsRead_zero_fills ⟨HANDLE.obj 1, false, 0, 0⟩ ⟨2, fun _ => 7, 0, true⟩ 1
    (fun _ => 9) 3 (by decide) (by decide)

theorem lsmWindowsOsWrite_ok (p : WindowsFile) (f : OsFile) (iOff : Int)
    (pData : List Byte) (nData : Nat) (accepted : Option Nat)
    (hw : (lsmWindowsOsWrite p f iOff pData nData accepted).1 = Rc.LSM_OK) :
    p.hFile.isValid = true ∧ 0 ≤ iOff ∧
    (lsmWindowsOsWrite p f iOff pData nData accepted).2.size
      = (if nData = 0 then f.size else max f.size (iOff.toNat + nData)) ∧
    ∀ i, i < nData →
      (lsmWindowsOsWrite p f iOff pData nData accepted).2.content (iOff.toNat + i)
        = pData.getD i 0 := by
  unfold lsmWindowsOsWrite at hw ⊢
  by_cases hv : p.hFile.isValid = true
  swap
  · simp [SetFilePointerEx, hv] at hw
  by_cases hd : 0 ≤ iOff
  swap
  · simp [SetFilePointerEx, hd] at hw
  dsimp only at hw ⊢
  rw [SetFilePointerEx_valid _ _ _ hv hd] at hw ⊢
  simp only [Option.isSome_some, decide_True, Bool.and_self, if_true] at hw ⊢
  cases accepted with
  | none => simp [WriteFile] at hw
  | some k =>
    by_cases hc : f.canWrite = true
    swap
    · simp [WriteFile, hc] at hw
    simp only [WriteFile, hv, hc, Bool.and_self, if_true] at hw ⊢
    by_cases hn : min nData k = nData
    swap
    · simp [hn] at hw
    simp only [hn, ne_eq, not_true_eq_false, or_false, Bool.true_eq_false, if_false]
    refine ⟨trivial, hd, trivial, ?_⟩
    intro i hi
    have h1 : iOff.toNat ≤ iOff.toNat + i ∧ iOff.toNat + i < iOff.toNat + nData := by omega
    rw [if_pos h1, Nat.add_sub_cancel_left]

/-- C1: whenever `lsmWindowsOsWrite(handle, offset, data)` returns `LSM_OK`,
a following `lsmWindowsOsRead(handle, offset, len(data))` on the same handle
returns `LSM_OK` and its buffer holds exactly `data`, whatever the buffer held
before. -/
theorem lsmWindowsOsWrite_then_lsmWindowsOsRead (p : WindowsFile) (f : OsFile) (iOff : Int)
    (data : List Byte) (accepted : Option Nat) (pData : Buffer)
    (hw : (lsmWindowsOsWrite p f iOff data data.length accepted).1 = Rc.LSM_OK) :
    (lsmWindowsOsRead p (lsmWindowsOsWrite p f iOff data data.length accepted).2 iOff
        pData data.length).rc = Rc.LSM_OK ∧
    bufferBytes (lsmWindowsOsRead p (lsmWindowsOsWrite p f iOff data data.length accepted).2
        iOff pData data.length).buf data.length = data := by
  obtain ⟨hv, hd, hsize, hcontent⟩ := lsmWindowsOsWrite_ok p f iOff data data.length accepted hw
  obtain ⟨off, rfl⟩ := Int.eq_ofNat_of_zero_le hd
  obtain ⟨hrc, hbuf⟩ := lsmWindowsOsRead_valid p
    (lsmWindowsOsWrite p f (off : Int) data data.length accepted).2 off pData data.length hv
  refine ⟨hrc, ?_⟩
  apply List.ext_getElem
  · simp [bufferBytes]
  · intro i h1 h2
    have hi : i < data.length := h2
    simp only [bufferBytes, List.getElem_map, List.getElem_range]
    rw [hbuf i hi, hsize]
    have hne : data.length ≠ 0 := by omega
    have hlt : off + i < max f.size ((off : Int).toNat + data.length) := by
      rw [Int.toNat_ofNat]
      exact lt_of_lt_of_le (by omega) (le_max_right _ _)
    rw [if_neg hne, if_pos hlt]
    have := hcontent i hi
    rw [Int.toNat_ofNat] at this
    rw [this, List.getD_eq_getElem _ _ hi]

theorem lsmWindowsOsWrite_then_lsmWindowsOsRead_witness :
    (lsmWindowsOsRead ⟨HANDLE.obj 1, false, 0, 0⟩
        (lsmWindowsOsWrite ⟨HANDLE.obj 1, false, 0, 0⟩ ⟨1, fun _ => 5, 0, true⟩ 3
          [1, 2] ([1, 2] : List Byte).length (some 8)).2 3
        (fun _ => 9) ([1, 2] : List Byte).length).rc = Rc.LSM_OK ∧
    bufferBytes (lsmWindowsOsRead ⟨HANDLE.obj 1, false, 0, 0⟩
        (lsmWindowsOsWrite ⟨HANDLE.obj 1, false, 0, 0⟩ ⟨1, fun _ => 5, 0, true⟩ 3
          [1, 2] ([1, 2] : List Byte).length (some 8)).2 3
        (fun _ => 9) ([1, 2] : List Byte).length).buf ([1, 2] : List Byte).length = [1, 2] :=
  lsmWindowsOsWrite_then_lsmWindowsOsRead ⟨HANDLE.obj 1, false, 0, 0⟩ ⟨1, fun _ => 5, 0, true⟩ 3
    [1, 2] (some 8) (fun _ => 9) (by decide)

theorem windowsSetFileSizeTo_le (h : HANDLE) (f : OsFile) (n : Int) (eofOk : Bool)
    (hv : h.isValid = true) (hn : n ≤ (f.size : Int)) :
    windowsSetFileSizeTo h f n eofOk = (Rc.LSM_OK, f) := by
  unfold windowsSetFileSizeTo
  simp [GetFileSizeEx, hv, hn]

theorem windowsSetFileSizeTo_gt (h : HANDLE) (f : OsFile) (n : Int) (eofOk : Bool)
    (hv : h.isValid = true) (hn : (f.size : Int) < n) :
    ((windowsSetFileSizeTo h f n eofOk).1 = Rc.LSM_OK ∧
      ((windowsSetFileSizeTo h f n eofOk).2.size : Int) = n) ∨
    ((windowsSetFileSizeTo h f n eofOk).1 = Rc.LSM_IOERR ∧
      (windowsSetFileSizeTo h f n eofOk).2.size = f.size) := by
  have hn0 : 0 ≤ n := le_trans (Int.ofNat_nonneg _) (le_of_lt hn)
  have hnot : ¬ (n ≤ (f.size : Int)) := not_le.mpr hn
  have hh : ¬ (h = HANDLE.NULL ∨ h = HANDLE.INVALID_HANDLE_VALUE) := by
    cases h <;> simp [HANDLE.isValid] at hv ⊢
  unfold windowsSetFileSizeTo
  simp only [GetFileSizeEx, hv, if_true, ge_iff_le, decide_eq_true_eq, hnot, if_false, hh]
  rw [SetFilePointerEx_valid _ _ _ hv hn0]
  simp only [if_true, SetEndOfFile, hv, Bool.true_and]
  by_cases hc : (f.canWrite && eofOk) = true
  · left
    simp [hc, Int.toNat_of_nonneg hn0]
  · right
    simp [hc]

/-- C3: on an open file of size `S`, `lsmWindowsOsTruncate(handle, n)` returns
`LSM_OK` and leaves the file as it was when `n ≤ S`; when `n > S` and it
returns `LSM_OK` the file size is exactly `n`; and the resulting size is never
below `S`. -/
theorem lsmWindowsOsTruncate_grow_only (p : WindowsFile) (f : OsFile) (n : Int) (eofOk : Bool)
    (hopen : p.hFile.isValid = true) :
    (n ≤ (f.size : Int) → lsmWindowsOsTruncate p f n eofOk = (Rc.LSM_OK, f)) ∧
    ((f.size : Int) < n → (lsmWindowsOsTruncate p f n eofOk).1 = Rc.LSM_OK →
      ((lsmWindowsOsTruncate p f n eofOk).2.size : Int) = n) ∧
    f.size ≤ (lsmWindowsOsTruncate p f n eofOk).2.size := by
  unfold lsmWindowsOsTruncate
  refine ⟨windowsSetFileSizeTo_le _ f n eofOk hopen, ?_, ?_⟩
  · intro hn hrc
    rcases windowsSetFileSizeTo_gt _ f n eofOk hopen hn with h | h
    · exact h.2
    · rw [h.1] at hrc
      exact absurd hrc (by decide)
  · by_cases hn : n ≤ (f.size : Int)
    · rw [windowsSetFileSizeTo_le _ f n eofOk hopen hn]
    · rcases windowsSetFileSizeTo_gt _ f n eofOk hopen (not_le.mp hn) with h | h
      · have := h.2
        omega
      · rw [h.2]

theorem lsmWindowsOsTruncate_grow_only_witness :
    (5 ≤ (((⟨3, fun _ => 1, 0, true⟩ : OsFile).size : Nat) : Int) →
      lsmWindowsOsTruncate ⟨HANDLE.obj 1, false, 0, 0⟩ ⟨3, fun _ => 1, 0, true⟩ 5 true
        = (Rc.LSM_OK, ⟨3, fun _ => 1, 0, true⟩)) ∧
    ((((⟨3, fun _ => 1, 0, true⟩ : OsFile).size : Nat) : Int) < 5 →
      (lsmWindowsOsTruncate ⟨HANDLE.obj 1, false, 0, 0⟩ ⟨3, fun _ => 1, 0, true⟩ 5 true).1
        = Rc.LSM_OK →
      ((lsmWindowsOsTruncate ⟨HANDLE.obj 1, false, 0, 0⟩ ⟨3, fun _ => 1, 0, true⟩ 5 true).2.size
        : Int) = 5) ∧
    (⟨3, fun _ => 1, 0, true⟩ : OsFile).size ≤
      (lsmWindowsOsTruncate ⟨HANDLE.obj 1, false, 0, 0⟩ ⟨3, fun _ => 1, 0, true⟩ 5 true).2.size :=
  lsmWindowsOsTruncate_grow_only ⟨HANDLE.obj 1, false, 0, 0⟩ ⟨3, fun _ => 1, 0, true⟩ 5 true
    (by decide)

theorem land_clear_low (n : Nat) (hn : n < 2 ^ 64) :
    n &&& (2 ^ 64 - 2 ^ 21) = n - n % 2 ^ 21 := by
  have h1 : (2 : Nat) ^ 64 - 2 ^ 21 = 2 ^ 21 * (2 ^ 43 - 1) := by norm_num
  have h2 : n - n % 2 ^ 21 = 2 ^ 21 * (n / 2 ^ 21) := by
    have := Nat.div_add_mod n (2 ^ 21)
    omega
  rw [h1, h2]
  apply Nat.eq_of_testBit_eq
  intro i
  rw [Nat.testBit_and, Nat.testBit_mul_pow_two, Nat.testBit_mul_pow_two,
    Nat.testBit_two_pow_sub_one, ← Nat.shiftRight_eq_div_pow, Nat.testBit_shiftRight]
  by_cases hi : 21 ≤ i
  · have e : 21 + (i - 21) = i := by omega
    by_cases hj : i < 64
    · have : i - 21 < 43 := by omega
      simp [hi, this, e]
    · have hlt : n < 2 ^ i := lt_of_lt_of_le hn (Nat.pow_le_pow_right (by norm_num) (by omega))
      simp [Nat.testBit_lt_two_pow hlt, e]
  · simp [hi]

theorem toU64_ofNat (n : Nat) (hn : n < 2 ^ 64) : toU64 (n : Int) = n := by
  unfold toU64
  have : ((n : Int) % 2 ^ 64) = (n : Int) := Int.emod_eq_of_lt (Int.ofNat_nonneg n) (by omega)
  rw [this, Int.toNat_ofNat]

theorem ofU64_small (n : Nat) (hn : n < 2 ^ 63) : ofU64 n = (n : Int) := by
  unfold ofU64
  rw [if_pos hn]

theorem and64_not_mask (n : Nat) (hn : n < 2 ^ 63) :
    and64 (n : Int) (bitNot nBitExtensionMask) = ((n - n % 2 ^ 21 : Nat) : Int) := by
  unfold and64
  have hm : toU64 (bitNot nBitExtensionMask) = 2 ^ 64 - 2 ^ 21 := by decide
  rw [toU64_ofNat n (by omega), hm, land_clear_low n (by omega), ofU64_small _ (by omega)]

theorem and64_mask (n : Nat) (hn : n < 2 ^ 63) :
    and64 (n : Int) nBitExtensionMask = ((n % 2 ^ 21 : Nat) : Int) := by
  unfold and64
  have hm : toU64 nBitExtensionMask = 2 ^ 21 - 1 := by decide
  rw [toU64_ofNat n (by omega), hm, Nat.and_pow_two_sub_one_eq_mod, ofU64_small _ (by omega)]

theorem toInt32_small (x : Int) (h0 : 0 ≤ x) (h1 : x < 2 ^ 31) : toInt32 x = x := by
  unfold toInt32
  omega

theorem extendSize_eq_roundUp (iMin : Int) (h0 : 0 < iMin) (h1 : iMin ≤ 2 ^ 31 - 2 ^ 21) :
    extendSize iMin = roundUp2MiB iMin := by
  obtain ⟨n, rfl⟩ := Int.eq_ofNat_of_zero_le (le_of_lt h0)
  have hn : n ≤ 2 ^ 31 - 2 ^ 21 := by omega
  unfold extendSize roundUp2MiB
  simp only []
  rw [and64_not_mask n (by omega), and64_mask n (by omega)]
  have hq := Nat.div_add_mod n (2 ^ 21)
  have hr := Nat.mod_lt n (show 0 < 2 ^ 21 by norm_num)
  have hmask : nBitExtensionMask = 2 ^ 21 - 1 := by decide
  rw [toInt32_small _ (Int.ofNat_nonneg _) (by omega), hmask]
  by_cases hpos : 0 < n % 2 ^ 21
  · rw [if_pos (by exact_mod_cast hpos), toInt32_small _ (by omega) (by omega)]
    omega
  · rw [if_neg (by push_neg; exact_mod_cast (not_lt.mp hpos))]
    omega

theorem lsmWindowsOsRemap_ok (p : WindowsFile) (f : OsFile) (iMin : Int) (env : RemapEnv)
    (h : (lsmWindowsOsRemap p f iMin env).rc = Rc.LSM_OK) :
    p.hFile.isValid = true ∧ 0 < iMin ∧
    (lsmWindowsOsRemap p f iMin env).pnOut
      = (if (f.size : Int) < iMin then extendSize iMin else (f.size : Int)) := by
  have hp1 : (if p.pMap ≠ 0 then { p with nMap := 0, pMap := 0 } else p).hFile = p.hFile := by
    split <;> rfl
  unfold lsmWindowsOsRemap at h ⊢
  simp only [hp1] at h ⊢
  by_cases hv : p.hFile.isValid = true
  swap
  · simp [GetFileSizeEx, hv] at h
  simp only [GetFileSizeEx, hv, if_true] at h ⊢
  by_cases hm : iMin ≤ 0
  · simp [hm] at h
  simp only [hm, if_false] at h ⊢
  refine ⟨trivial, not_le.mp hm, ?_⟩
  by_cases hlt : (f.size : Int) < iMin
  · simp only [hlt, if_true] at h ⊢
    split at h
    · simp_all
    · split at h
      · simp at h
      · split at h
        · simp at h
        · simp_all
  · simp only [hlt, if_false] at h ⊢
    split at h
    · simp_all
    · split at h
      · simp at h
      · split at h
        · simp at h
        · simp_all

/-- C4 (as stated, refuted): on an empty file a request for 1 byte succeeds
with length `2 ^ 21`, which equals the next 2 MiB boundary `R` instead of lying
below it; and on a file of three times 2 MiB the same request returns the file
size, above `R`. -/
theorem lsmWindowsOsRemap_length_reaches_boundary :
    ((lsmWindowsOsRemap ⟨HANDLE.obj 1, false, 0, 0⟩ ⟨0, fun _ => 0, 0, true⟩ 1
        ⟨true, true, 4096⟩).rc = Rc.LSM_OK ∧
      ¬ ((lsmWindowsOsRemap ⟨HANDLE.obj 1, false, 0, 0⟩ ⟨0, fun _ => 0, 0, true⟩ 1
        ⟨true, true, 4096⟩).pnOut < (1 / 2 ^ 21 + 1) * 2 ^ 21)) ∧
    ((lsmWindowsOsRemap ⟨HANDLE.obj 1, false, 0, 0⟩ ⟨6291456, fun _ => 0, 0, true⟩ 1
        ⟨true, true, 4096⟩).rc = Rc.LSM_OK ∧
      ¬ ((lsmWindowsOsRemap ⟨HANDLE.obj 1, false, 0, 0⟩ ⟨6291456, fun _ => 0, 0, true⟩ 1
        ⟨true, true, 4096⟩).pnOut < (1 / 2 ^ 21 + 1) * 2 ^ 21)) := by
  decide

/-- C4 (amended): for a request `iMin` that the file already covers, or that
is at most `2 ^ 31 - 2 ^ 21`, a successful `lsmWindowsOsRemap` returns a length
`L` with `iMin ≤ L ≤ max S R`, where `S` is the file size before the call and
`R = (iMin / 2 ^ 21 + 1) * 2 ^ 21`: `L` is `S` when `iMin ≤ S`, and the smallest
multiple of `2 ^ 21` that is at least `iMin` when `S < iMin`. -/
theorem lsmWindowsOsRemap_length_bounds (p : WindowsFile) (f : OsFile) (iMin : Int)
    (env : RemapEnv)
    (hrange : iMin ≤ (f.size : Int) ∨ iMin ≤ 2 ^ 31 - 2 ^ 21)
    (hok : (lsmWindowsOsRemap p f iMin env).rc = Rc.LSM_OK) :
    iMin ≤ (lsmWindowsOsRemap p f iMin env).pnOut ∧
    (lsmWindowsOsRemap p f iMin env).pnOut ≤ max (f.size : Int) ((iMin / 2 ^ 21 + 1) * 2 ^ 21) ∧
    (iMin ≤ (f.size : Int) → (lsmWindowsOsRemap p f iMin env).pnOut = (f.size : Int)) ∧
    ((f.size : Int) < iMin → (lsmWindowsOsRemap p f iMin env).pnOut = roundUp2MiB iMin) := by
  obtain ⟨-, hpos, hL⟩ := lsmWindowsOsRemap_ok p f iMin env hok
  rw [hL]
  by_cases hlt : (f.size : Int) < iMin
  · have hr : iMin ≤ 2 ^ 31 - 2 ^ 21 := by
      rcases hrange with h | h
      · exact absurd hlt (not_lt.mpr h)
      · exact h
    rw [if_pos hlt, extendSize_eq_roundUp iMin hpos hr]
    have hup : iMin ≤ roundUp2MiB iMin ∧ roundUp2MiB iMin ≤ (iMin / 2 ^ 21 + 1) * 2 ^ 21 := by
      unfold roundUp2MiB
      omega
    refine ⟨hup.1, le_trans hup.2 (le_max_right _ _), ?_, fun _ => rfl⟩
    intro h
    exact absurd hlt (not_lt.mpr h)
  · rw [if_neg hlt]
    exact ⟨not_lt.mp hlt, le_max_left _ _, fun _ => rfl, fun h => absurd h hlt⟩

theorem lsmWindowsOsRemap_length_bounds_witness :
    (5 : Int) ≤ (lsmWindowsOsRemap ⟨HANDLE.obj 1, false, 0, 0⟩ ⟨3, fun _ => 0, 0, true⟩ 5
        ⟨true, true, 4096⟩).pnOut ∧
    (lsmWindowsOsRemap ⟨HANDLE.obj 1, false, 0, 0⟩ ⟨3, fun _ => 0, 0, true⟩ 5
        ⟨true, true, 4096⟩).pnOut
      ≤ max (((⟨3, fun _ => 0, 0, true⟩ : OsFile).size : Nat) : Int) ((5 / 2 ^ 21 + 1) * 2 ^ 21) ∧
    ((5 : Int) ≤ (((⟨3, fun _ => 0, 0, true⟩ : OsFile).size : Nat) : Int) →
      (lsmWindowsOsRemap ⟨HANDLE.obj 1, false, 0, 0⟩ ⟨3, fun _ => 0, 0, true⟩ 5
        ⟨true, true, 4096⟩).pnOut = (((⟨3, fun _ => 0, 0, true⟩ : OsFile).size : Nat) : Int)) ∧
    ((((⟨3, fun _ => 0, 0, true⟩ : OsFile).size : Nat) : Int) < 5 →
      (lsmWindowsOsRemap ⟨HANDLE.obj 1, false, 0, 0⟩ ⟨3, fun _ => 0, 0, true⟩ 5
        ⟨true, true, 4096⟩).pnOut = roundUp2MiB 5) :=
  lsmWindowsOsRemap_length_bounds ⟨HANDLE.obj 1, false, 0, 0⟩ ⟨3, fun _ => 0, 0, true⟩ 5
    ⟨true, true, 4096⟩ (by decide) (by decide)

/-- C5 (the code departs from the claim): on an empty file a request for
`2 ^ 32 + 1` bytes succeeds; the `int extendSize` is `2 ^ 21`, the file is
grown to `2 ^ 21` bytes and that is the length returned, while the smallest
multiple of `2 ^ 21` at least `2 ^ 32 + 1` is `2 ^ 32 + 2 ^ 21`. -/
theorem lsmWindowsOsRemap_extendSize_truncated :
    (lsmWindowsOsRemap ⟨HANDLE.obj 1, false, 0, 0⟩ ⟨0, fun _ => 0, 0, true⟩ (2 ^ 32 + 1)
        ⟨true, true, 4096⟩).rc = Rc.LSM_OK ∧
    (lsmWindowsOsRemap ⟨HANDLE.obj 1, false, 0, 0⟩ ⟨0, fun _ => 0, 0, true⟩ (2 ^ 32 + 1)
        ⟨true, true, 4096⟩).pnOut = 2 ^ 21 ∧
    (lsmWindowsOsRemap ⟨HANDLE.obj 1, false, 0, 0⟩ ⟨0, fun _ => 0, 0, true⟩ (2 ^ 32 + 1)
        ⟨true, true, 4096⟩).file.size = 2 ^ 21 ∧
    extendSize (2 ^ 32 + 1) % 2 ^ 32 = 2 ^ 21 ∧
    roundUp2MiB (2 ^ 32 + 1) = 2 ^ 32 + 2 ^ 21 := by
  decide

/-- C6 (the code departs from the claim): on a fresh handle (no view, length
0) over an empty file, a request for 1 byte whose view mapping fails returns
`LSM_IOERR` with a null `pMap` but leaves `nMap` at `2 ^ 21`. -/
theorem lsmWindowsOsRemap_failed_view_keeps_nMap :
    (lsmWindowsOsRemap ⟨HANDLE.obj 1, false, 0, 0⟩ ⟨0, fun _ => 0, 0, true⟩ 1
        ⟨true, true, 0⟩).rc = Rc.LSM_IOERR ∧
    (lsmWindowsOsRemap ⟨HANDLE.obj 1, false, 0, 0⟩ ⟨0, fun _ => 0, 0, true⟩ 1
        ⟨true, true, 0⟩).p.pMap = 0 ∧
    (lsmWindowsOsRemap ⟨HANDLE.obj 1, false, 0, 0⟩ ⟨0, fun _ => 0, 0, true⟩ 1
        ⟨true, true, 0⟩).p.nMap = 2 ^ 21 := by
  decide

theorem LockFileEx_free (h : HANDLE) (ex : Bool) (off n : Nat) (t : LockTable)
    (hv : h.isValid = true) (hfree : ∀ l ∈ t, l.overlaps off n = false) :
    LockFileEx h ex off n t = (true, ⟨h, off, n, ex⟩ :: t) := by
  unfold LockFileEx
  have hany : (t.any fun l =>
      l.overlaps off n && (ex || (l.exclusive && decide (l.owner ≠ h)))) = false := by
    rw [List.any_eq_false]
    intro l hl
    simp [hfree l hl]
  rw [hany, hv]
  rfl

theorem LockFileEx_exclusive_conflict (h : HANDLE) (off n : Nat) (t : LockTable) (l : ByteLock)
    (hl : l ∈ t) (ho : l.overlaps off n = true) :
    LockFileEx h true off n t = (false, t) := by
  unfold LockFileEx
  have hany : (t.any fun l =>
      l.overlaps off n && (true || (l.exclusive && decide (l.owner ≠ h)))) = true := by
    rw [List.any_eq_true]
    exact ⟨l, hl, by simp [ho]⟩
  rw [hany]
  simp

theorem ByteLock.overlaps_self (h : HANDLE) (off : Nat) (ex : Bool) :
    (⟨h, off, 1, ex⟩ : ByteLock).overlaps off 1 = true := by
  simp [ByteLock.overlaps]

/-- C7: on a slot that nobody holds, `lsmWindowsOsLock(slot, Exclusive)` on
handle `A` and then on handle `B` gives `LSM_OK` to `A` and `LSM_BUSY` to `B`;
once `A` has unlocked the slot (`LSM_OK`), the retry on `B` returns `LSM_OK`. -/
theorem lsmWindowsOsLock_exclusive_handover (A B : WindowsFile) (slot : Int) (t : LockTable)
    (hA : A.hFile.isValid = true) (hB : B.hFile.isValid = true)
    (hfree : ∀ l ∈ t, l.overlaps (lockOffset slot) 1 = false) :
    (lsmWindowsOsLock A slot LockType.LSM_LOCK_EXCL t).1 = Rc.LSM_OK ∧
    (lsmWindowsOsLock B slot LockType.LSM_LOCK_EXCL
      (lsmWindowsOsLock A slot LockType.LSM_LOCK_EXCL t).2).1 = Rc.LSM_BUSY ∧
    (lsmWindowsOsLock A slot LockType.LSM_LOCK_UNLOCK
      (lsmWindowsOsLock B slot LockType.LSM_LOCK_EXCL
        (lsmWindowsOsLock A slot LockType.LSM_LOCK_EXCL t).2).2).1 = Rc.LSM_OK ∧
    (lsmWindowsOsLock B slot LockType.LSM_LOCK_EXCL
      (lsmWindowsOsLock A slot LockType.LSM_LOCK_UNLOCK
        (lsmWindowsOsLock B slot LockType.LSM_LOCK_EXCL
          (lsmWindowsOsLock A slot LockType.LSM_LOCK_EXCL t).2).2).2).1 = Rc.LSM_OK := by
  have h1 : lsmWindowsOsLock A slot LockType.LSM_LOCK_EXCL t
      = (Rc.LSM_OK, ⟨A.hFile, lockOffset slot, 1, true⟩ :: t) := by
    unfold lsmWindowsOsLock
    simp [LockFileEx_free A.hFile true (lockOffset slot) 1 t hA hfree]
  have h2 : lsmWindowsOsLock B slot LockType.LSM_LOCK_EXCL
      (⟨A.hFile, lockOffset slot, 1, true⟩ :: t)
      = (Rc.LSM_BUSY, ⟨A.hFile, lockOffset slot, 1, true⟩ :: t) := by
    unfold lsmWindowsOsLock
    simp [LockFileEx_exclusive_conflict B.hFile (lockOffset slot) 1 _
      ⟨A.hFile, lockOffset slot, 1, true⟩ (List.mem_cons_self _ _)
      (ByteLock.overlaps_self _ _ _)]
  have h3 : lsmWindowsOsLock A slot LockType.LSM_LOCK_UNLOCK
      (⟨A.hFile, lockOffset slot, 1, true⟩ :: t) = (Rc.LSM_OK, t) := by
    unfold lsmWindowsOsLock
    simp [UnlockFileEx]
  have h4 : lsmWindowsOsLock B slot LockType.LSM_LOCK_EXCL t
      = (Rc.LSM_OK, ⟨B.hFile, lockOffset slot, 1, true⟩ :: t) := by
    unfold lsmWindowsOsLock
    simp [LockFileEx_free B.hFile true (lockOffset slot) 1 t hB hfree]
  rw [h1]
  simp only [h2, h3, h4, and_self]

theorem lsmWindowsOsLock_exclusive_handover_witness :
    (lsmWindowsOsLock ⟨HANDLE.obj 1, false, 0, 0⟩ 3 LockType.LSM_LOCK_EXCL
      [⟨HANDLE.obj 2, 4094, 1, true⟩]).1 = Rc.LSM_OK ∧
    (lsmWindowsOsLock ⟨HANDLE.obj 2, false, 0, 0⟩ 3 LockType.LSM_LOCK_EXCL
      (lsmWindowsOsLock ⟨HANDLE.obj 1, false, 0, 0⟩ 3 LockType.LSM_LOCK_EXCL
        [⟨HANDLE.obj 2, 4094, 1, true⟩]).2).1 = Rc.LSM_BUSY ∧
    (lsmWindowsOsLock ⟨HANDLE.obj 1, false, 0, 0⟩ 3 LockType.LSM_LOCK_UNLOCK
      (lsmWindowsOsLock ⟨HANDLE.obj 2, false, 0, 0⟩ 3 LockType.LSM_LOCK_EXCL
        (lsmWindowsOsLock ⟨HANDLE.obj 1, false, 0, 0⟩ 3 LockType.LSM_LOCK_EXCL
          [⟨HANDLE.obj 2, 4094, 1, true⟩]).2).2).1 = Rc.LSM_OK ∧
    (lsmWindowsOsLock ⟨HANDLE.obj 2, false, 0, 0⟩ 3 LockType.LSM_LOCK_EXCL
      (lsmWindowsOsLock ⟨HANDLE.obj 1, false, 0, 0⟩ 3 LockType.LSM_LOCK_UNLOCK
        (lsmWindowsOsLock ⟨HANDLE.obj 2, false, 0, 0⟩ 3 LockType.LSM_LOCK_EXCL
          (lsmWindowsOsLock ⟨HANDLE.obj 1, false, 0, 0⟩ 3 LockType.LSM_LOCK_EXCL
            [⟨HANDLE.obj 2, 4094, 1, true⟩]).2).2).2).1 = Rc.LSM_OK :=
  lsmWindowsOsLock_exclusive_handover ⟨HANDLE.obj 1, false, 0, 0⟩ ⟨HANDLE.obj 2, false, 0, 0⟩ 3
    [⟨HANDLE.obj 2, 4094, 1, true⟩] (by decide) (by decide) (by decide)

theorem LockFileEx_cases (h : HANDLE) (ex : Bool) (off n : Nat) (t : LockTable) :
    LockFileEx h ex off n t = (true, ⟨h, off, n, ex⟩ :: t) ∨ LockFileEx h ex off n t = (false, t) := by
  unfold LockFileEx
  split
  · exact Or.inl rfl
  · exact Or.inr rfl

/-- The probe of `lsmWindowsOsTestLock` leaves the lock table as it found it
whenever the calling handle holds no exclusive lock on exactly the probed
range. -/
theorem lsmWindowsOsTestLock_frame (p : WindowsFile) (iLock nLock : Int) (eType : LockType)
    (t : LockTable)
    (hown : (⟨p.hFile, (testLockRange iLock nLock).1, (testLockRange iLock nLock).2, true⟩
      : ByteLock) ∉ t) :
    (lsmWindowsOsTestLock p iLock nLock eType t).2 = t := by
  unfold lsmWindowsOsTestLock
  simp only []
  rcases LockFileEx_cases p.hFile false (testLockRange iLock nLock).1
      (testLockRange iLock nLock).2 t with hl | hl
  · rw [hl]
    simp [UnlockFileEx, hown]
  · rw [hl]
    simp

/-- C8 (the code departs from the claim): after handle `A` has taken slot 1
exclusively through `lsmWindowsOsLock`, `lsmWindowsOsTestLock(A, 1, 1, mode)`
returns `LSM_OK` and leaves `A` holding a shared lock on the slot's byte in
place of its exclusive lock. -/
theorem lsmWindowsOsTestLock_downgrades_own_exclusive :
    lsmWindowsOsLock ⟨HANDLE.obj 1, false, 0, 0⟩ 1 LockType.LSM_LOCK_EXCL []
      = (Rc.LSM_OK, [⟨HANDLE.obj 1, 4095, 1, true⟩]) ∧
    lsmWindowsOsTestLock ⟨HANDLE.obj 1, false, 0, 0⟩ 1 1 LockType.LSM_LOCK_SHARED
        [⟨HANDLE.obj 1, 4095, 1, true⟩]
      = (Rc.LSM_OK, [⟨HANDLE.obj 1, 4095, 1, false⟩]) := by
  decide

/-- For a single slot the probed range is the slot's own byte. -/
theorem probedBytes_one (iLock : Int) : probedBytes iLock 1 = slotBytes iLock 1 := by
  have h1 : toDWORD 1 = 1 := by decide
  simp [probedBytes, slotBytes, testLockRange, h1, List.range_succ]

/-- Slots 1..32 sit on the bytes `4096 - s`, one byte per slot. -/
theorem lockOffset_slot (s : Int) (h1 : 1 ≤ s) (h2 : s ≤ 32) :
    (lockOffset s : Int) = 4096 - s := by
  unfold lockOffset
  omega

/-- C9 (the code departs from the claim): for slot 1 and count 2 the probed
bytes are 4095 and 4096 while slots 1 and 2 are locked on bytes 4095 and 4094;
with slot 2 held exclusively by handle `B`, the probe of slots 1..2 by `A`
answers `LSM_OK` although `lsmWindowsOsLock(A, 2, Exclusive)` is `LSM_BUSY`. -/
theorem lsmWindowsOsTestLock_range_misses_slots :
    probedBytes 1 2 = [4095, 4096] ∧ slotBytes 1 2 = [4095, 4094] ∧
    ¬ (∀ b, b ∈ probedBytes 1 2 ↔ b ∈ slotBytes 1 2) ∧
    (lsmWindowsOsTestLock ⟨HANDLE.obj 1, false, 0, 0⟩ 1 2 LockType.LSM_LOCK_EXCL
      (lsmWindowsOsLock ⟨HANDLE.obj 2, false, 0, 0⟩ 2 LockType.LSM_LOCK_EXCL []).2).1
        = Rc.LSM_OK ∧
    (lsmWindowsOsLock ⟨HANDLE.obj 1, false, 0, 0⟩ 2 LockType.LSM_LOCK_EXCL
      (lsmWindowsOsLock ⟨HANDLE.obj 2, false, 0, 0⟩ 2 LockType.LSM_LOCK_EXCL []).2).1
        = Rc.LSM_BUSY := by
  refine ⟨by decide, by decide, ?_, by decide, by decide⟩
  intro h
  exact absurd ((h 4096).mp (by decide)) (by decide)

/-- In shared mode the probe of one slot answers as `lsmWindowsOsLock` would. -/
theorem lsmWindowsOsTestLock_shared_agrees (p : WindowsFile) (iLock : Int) (t : LockTable) :
    (lsmWindowsOsTestLock p iLock 1 LockType.LSM_LOCK_SHARED t).1
      = (lsmWindowsOsLock p iLock LockType.LSM_LOCK_SHARED t).1 := by
  have h1 : toDWORD 1 = 1 := by decide
  unfold lsmWindowsOsTestLock lsmWindowsOsLock
  simp only [testLockRange, h1]
  by_cases hl : (LockFileEx p.hFile false (lockOffset iLock) 1 t).1 = true
  · simp [hl]
  · simp [hl]

/-- C10 (the code departs from the claim): with handle `B` holding a shared
lock on slot 1, `lsmWindowsOsTestLock(A, 1, 1, Exclusive)` returns `LSM_OK`
while `lsmWindowsOsLock(A, 1, Exclusive)` in the same state returns
`LSM_BUSY`. -/
theorem lsmWindowsOsTestLock_ignores_exclusive_mode :
    lsmWindowsOsLock ⟨HANDLE.obj 2, false, 0, 0⟩ 1 LockType.LSM_LOCK_SHARED []
      = (Rc.LSM_OK, [⟨HANDLE.obj 2, 4095, 1, false⟩]) ∧
    (lsmWindowsOsTestLock ⟨HANDLE.obj 1, false, 0, 0⟩ 1 1 LockType.LSM_LOCK_EXCL
      [⟨HANDLE.obj 2, 4095, 1, false⟩]).1 = Rc.LSM_OK ∧
    (lsmWindowsOsLock ⟨HANDLE.obj 1, false, 0, 0⟩ 1 LockType.LSM_LOCK_EXCL
      [⟨HANDLE.obj 2, 4095, 1, false⟩]).1 = Rc.LSM_BUSY := by
  decide

theorem lsmWindowsOsRemap_ok_or_null (p : WindowsFile) (f : OsFile) (iMin : Int)
    (env : RemapEnv) :
    (lsmWindowsOsRemap p f iMin env).rc = Rc.LSM_OK ∨
    ((lsmWindowsOsRemap p f iMin env).p.pMap = 0 ∧
      (lsmWindowsOsRemap p f iMin env).ppOut = 0 ∧
      (lsmWindowsOsRemap p f iMin env).pnOut = 0) := by
  unfold lsmWindowsOsRemap
  simp only []
  repeat' split
  all_goals first
    | (left; rfl)
    | (right; refine ⟨?_, rfl, rfl⟩; first | assumption | rfl | simp_all)

/-- On every error return of `lsmWindowsOsRemap` the stored view pointer and
both output parameters are null. -/
theorem lsmWindowsOsRemap_error_pMap_null (p : WindowsFile) (f : OsFile) (iMin : Int)
    (env : RemapEnv) (herr : (lsmWindowsOsRemap p f iMin env).rc ≠ Rc.LSM_OK) :
    (lsmWindowsOsRemap p f iMin env).p.pMap = 0 ∧
    (lsmWindowsOsRemap p f iMin env).ppOut = 0 ∧
    (lsmWindowsOsRemap p f iMin env).pnOut = 0 := by
  rcases lsmWindowsOsRemap_ok_or_null p f iMin env with h | h
  · exact absurd h herr
  · exact h

theorem windowsOpenShmFile_tracked (p : WindowsFileRec) (shm : OsFile) (nameOk : Bool)
    (opened : Option Nat) (e : Rc) (p1 : WindowsFileRec) (shm1 : OsFile)
    (h : windowsOpenShmFile p shm nameOk opened = some (e, p1, shm1)) :
    trackedSize p1 = trackedSize p := by
  unfold windowsOpenShmFile at h
  cases hz : p.zName with
  | none => simp [hz] at h
  | some len =>
    cases hs : p.pShm with
    | none => simp [hz, hs] at h
    | some s =>
      simp only [hz, hs] at h
      cases nameOk with
      | false => simp at h
      | true =>
        cases opened with
        | none =>
          simp [lsmWindowsSharedMemoryFileName] at h
          rw [← h.2.1]
          simp [trackedSize, hs]
        | some id =>
          simp [lsmWindowsSharedMemoryFileName] at h
          rw [← h.2.1]
          simp [trackedSize, hs]

/-- One call of `lsmWindowsOsShmMap` never lowers the tracked size, and a call
that returns `LSM_OK` for a chunk whose offset fits an `int` leaves it at or
above the end of that chunk. -/
theorem lsmWindowsOsShmMap_tracked (C : Int) (p : WindowsFileRec) (shm : OsFile) (i : Int)
    (env : ShmMapEnv) (r : ShmMapResult)
    (hr : lsmWindowsOsShmMap C p shm i C env = some r) (h0 : 0 ≤ trackedSize p) :
    trackedSize p ≤ trackedSize r.p ∧
    (r.rc = Rc.LSM_OK → 0 ≤ i * C → i * C < 2 ^ 31 → i * C + C ≤ trackedSize r.p) := by
  unfold lsmWindowsOsShmMap at hr
  simp only [] at hr
  cases hs0 : p.pShm with
  | none => simp [hs0] at hr
  | some s0 =>
    simp only [hs0] at hr
    generalize ho : (if s0.hFile = HANDLE.NULL ∨ s0.hFile = HANDLE.INVALID_HANDLE_VALUE then
        windowsOpenShmFile p shm env.nameOk env.opened
      else some (Rc.LSM_OK, p, shm)) = o at hr
    cases o with
    | none => simp at hr
    | some t =>
      obtain ⟨err, p1, shm1⟩ := t
      have hT : trackedSize p1 = trackedSize p := by
        split at ho
        · exact windowsOpenShmFile_tracked _ _ _ _ _ _ _ ho
        · simp only [Option.some.injEq, Prod.mk.injEq] at ho
          rw [← ho.2.1]
      simp only [] at hr
      by_cases herr : err = Rc.LSM_OK
      swap
      · simp only [herr, ne_eq, not_false_eq_true, if_true, Option.some.injEq] at hr
        subst hr
        exact ⟨le_of_eq hT.symm, fun h => absurd h herr⟩
      subst herr
      simp only [ne_eq, not_true_eq_false, if_false] at hr
      cases hs1 : p1.pShm with
      | none => simp [hs1] at hr
      | some s1 =>
        simp only [hs1] at hr
        have hs1T : s1.nSizeSharedMemory = trackedSize p := by
          rw [← hT]
          simp [trackedSize, hs1]
        generalize hoff : toInt32 (i * C) = off at hr
        generalize hw : windowsSetFileSizeTo s1.hFile shm1
          (if s1.nSizeSharedMemory * 2 < off + C then off + C else s1.nSizeSharedMemory * 2)
          env.eofOk = w at hr
        generalize hg : (if off + C ≥ s1.nSizeSharedMemory then
            if ¬ w.1 = Rc.LSM_OK then (Rc.LSM_IOERR, s1, w.2)
            else (Rc.LSM_OK,
              ({ pSegRoot := s1.pSegRoot
                 nSizeSharedMemory :=
                   if s1.nSizeSharedMemory * 2 < off + C then off + C
                   else s1.nSizeSharedMemory * 2
                 hFile := s1.hFile } : SharedMemoryFile), w.2)
          else (Rc.LSM_OK, s1, shm1)) = g at hr
        have hgT : trackedSize p ≤ g.2.1.nSizeSharedMemory ∧
            (g.1 = Rc.LSM_OK → off + C ≤ g.2.1.nSizeSharedMemory) := by
          rw [← hg]
          split
          · split
            · exact ⟨le_of_eq hs1T.symm, fun h => by simp at h⟩
            · simp only []
              split <;> constructor <;> intros <;> omega
          · simp only []
            constructor
            · omega
            · intro _; omega
        have hfin : ∀ (q : WindowsFileRec), trackedSize q = g.2.1.nSizeSharedMemory →
            ∀ rc : Rc, (rc = Rc.LSM_OK → g.1 = Rc.LSM_OK) →
            trackedSize p ≤ trackedSize q ∧
            (rc = Rc.LSM_OK → 0 ≤ i * C → i * C < 2 ^ 31 → i * C + C ≤ trackedSize q) := by
          intro q hq rc hrc
          rw [hq]
          refine ⟨hgT.1, ?_⟩
          intro h1 h2 h3
          have := hgT.2 (hrc h1)
          rw [← hoff, toInt32_small _ h2 h3] at this
          exact this
        split at hr
        · simp only [Option.some.injEq] at hr
          subst hr
          exact hfin _ (by simp [trackedSize]) _ (fun h => by simp at h)
        · rename_i hg1
          split at hr
          · simp only [Option.some.injEq] at hr
            subst hr
            exact hfin _ (by simp [trackedSize]) _ (fun h => by simp at h)
          · split at hr
            · simp only [Option.some.injEq] at hr
              subst hr
              exact hfin _ (by simp [trackedSize]) _ (fun h => by simp at h)
            · split at hr
              · simp only [Option.some.injEq] at hr
                subst hr
                exact hfin _ (by simp [trackedSize]) _ (fun h => by simp at h)
              · simp only [Option.some.injEq] at hr
                subst hr
                exact hfin _ (by simp [trackedSize]) _ (fun _ => not_not.mp hg1)

/-- Along a run of `lsmWindowsOsShmMap` calls whose chunk offsets all fit an
`int`, the tracked size never decreases and ends at or above the end offset of
every chunk that was mapped. -/
theorem shmMapRun_tracked (C : Int) (calls : List ShmCall) :
    ∀ (p : WindowsFileRec) (shm : OsFile) (p' : WindowsFileRec) (shm' : OsFile)
      (mapped : List Int),
      0 ≤ trackedSize p →
      (∀ c ∈ calls, 0 ≤ c.chunkIndex * C ∧ c.chunkIndex * C < 2 ^ 31) →
      shmMapRun C p shm calls = some (p', shm', mapped) →
      trackedSize p ≤ trackedSize p' ∧ ∀ j ∈ mapped, (j + 1) * C ≤ trackedSize p' := by
  induction calls with
  | nil =>
    intro p shm p' shm' mapped _ _ h
    simp only [shmMapRun, Option.some.injEq, Prod.mk.injEq] at h
    obtain ⟨rfl, -, rfl⟩ := h
    exact ⟨le_refl _, fun j hj => absurd hj (List.not_mem_nil j)⟩
  | cons c cs ih =>
    intro p shm p' shm' mapped h0 hfit h
    simp only [shmMapRun] at h
    cases hstep : lsmWindowsOsShmMap C p shm c.chunkIndex C c.env with
    | none => simp [hstep] at h
    | some r =>
      simp only [hstep] at h
      have hs := lsmWindowsOsShmMap_tracked C p shm c.chunkIndex c.env r hstep h0
      cases hrest : shmMapRun C r.p r.shm cs with
      | none => simp [hrest] at h
      | some t =>
        obtain ⟨q, shmq, m⟩ := t
        simp only [hrest, Option.some.injEq, Prod.mk.injEq] at h
        obtain ⟨rfl, -, hm⟩ := h
        have hi := ih r.p r.shm q shmq m (le_trans h0 hs.1)
          (fun c' hc' => hfit c' (List.mem_cons_of_mem _ hc')) hrest
        refine ⟨le_trans hs.1 hi.1, ?_⟩
        intro j hj
        rw [← hm] at hj
        have hc := hfit c (List.mem_cons_self _ _)
        by_cases hok : r.rc = Rc.LSM_OK
        · rw [if_pos hok] at hj
          rcases List.mem_cons.mp hj with hj | hj
          · subst hj
            have := hs.2 hok hc.1 hc.2
            rw [add_mul, one_mul]
            exact le_trans this hi.1
          · exact hi.2 j hj
        · rw [if_neg hok] at hj
          exact hi.2 j hj

/-- On a fresh handle, mapping chunks 0 and 1000 of 32 KiB succeeds and leaves
the tracked size at `1001 * 32768`. -/
theorem shmMapRun_chunks_0_and_1000 :
    (shmMapRun 32768 (freshHandle (HANDLE.obj 1) 7) ⟨0, fun _ => 0, 0, true⟩
        [⟨0, ⟨true, some 2, true, true, true, 4096⟩⟩,
         ⟨1000, ⟨true, some 2, true, true, true, 8192⟩⟩]).map
      (fun r => (trackedSize r.1, r.2.2)) = some (1001 * 32768, [0, 1000]) := by
  decide

/-- C11 (the code departs from the claim): with a chunk size of 32 KiB, the
first call on a fresh handle for chunk index `131072` returns `LSM_OK` (the
`int` product `131072 * 32768` is `0`), and the tracked size afterwards is
`32768`, below `(131072 + 1) * 32768`. -/
theorem lsmWindowsOsShmMap_chunk_offset_wraps :
    (shmMapRun 32768 (freshHandle (HANDLE.obj 1) 7) ⟨0, fun _ => 0, 0, true⟩
        [⟨131072, ⟨true, some 2, true, true, true, 4096⟩⟩]).map
      (fun r => (trackedSize r.1, r.2.2)) = some (32768, [131072]) ∧
    ¬ ((131072 + 1) * 32768 ≤ (32768 : Int)) ∧
    toInt32 (131072 * 32768) = 0 := by
  decide

/-- The size `lsmWindowsOsMSize` reports for a block from
`lsmWindowsOsMalloc(N)` is `N + BLOCK_HDR_SIZE`. -/
theorem lsmWindowsOsMSize_lsmWindowsOsMalloc (hdr : Nat) (mem : HeaderStore) (N : Int) (m : Nat)
    (hm : m ≠ 0) (h0 : 0 ≤ N) (h1 : N + (hdr : Int) < 2 ^ 31) :
    (lsmWindowsOsMalloc hdr mem N m).map (fun r => lsmWindowsOsMSize hdr r.2 r.1)
      = some (N + (hdr : Int)) := by
  unfold lsmWindowsOsMalloc lsmWindowsOsMSize
  simp only [if_neg hm, Option.map_some', Nat.add_sub_cancel, if_true, Option.some.injEq]
  exact toInt32_small _ (by omega) h1

/-- The size `lsmWindowsOsMSize` reports for a block resized by
`lsmWindowsOsRealloc(p, N)` is `N`. -/
theorem lsmWindowsOsMSize_lsmWindowsOsRealloc (hdr : Nat) (mem : HeaderStore) (p : Nat) (N : Int)
    (re : Nat) (hp : p ≠ 0) (hre : re ≠ 0) (hN : 1 ≤ N) :
    (lsmWindowsOsRealloc hdr mem p N re).map (fun r => lsmWindowsOsMSize hdr r.2 r.1)
      = some N := by
  unfold lsmWindowsOsRealloc lsmWindowsOsMSize
  have h1 : ¬ (1 > N) := by omega
  simp [h1, hp, hre]

/-- C12 (the code departs from the claim): with an 8-byte header,
`lsmWindowsOsMSize(lsmWindowsOsMalloc(16))` is 24, the size of the block with
its header, whereas after `lsmWindowsOsRealloc` of that block to 16 bytes it
is 16. -/
theorem lsmWindowsOsMalloc_header_counts_itself :
    (lsmWindowsOsMalloc 8 (fun _ => 0) 16 4096).map
        (fun r => (r.1, lsmWindowsOsMSize 8 r.2 r.1)) = some (4104, 24) ∧
    (lsmWindowsOsRealloc 8 (fun a => if a = 4096 then 24 else 0) 4104 16 8192).map
        (fun r => (r.1, lsmWindowsOsMSize 8 r.2 r.1)) = some (8200, 16) := by
  decide

/-- Whenever `lsmWindowsOsOpen` fails after the handle record was allocated,
the shared-memory record it allocated is still live. -/
theorem lsmWindowsOsOpen_failure_keeps_shmRecord (env : OpenEnv) (live live' : List Resource)
    (rc : Rc) (h : lsmWindowsOsOpen env live = some (rc, live')) (hrec : env.recordOk = true)
    (hrc : rc ≠ Rc.LSM_OK) :
    live'.count Resource.shmRecord = live.count Resource.shmRecord + 1 := by
  obtain ⟨a, b, c, d, e, f, g⟩ := env
  simp only at hrec
  subst hrec
  cases b <;> cases c <;> cases d <;> cases e <;> cases f <;> cases g <;>
    simp [lsmWindowsOsOpen] at h <;>
    obtain ⟨h1, h2⟩ := h <;>
    first
      | exact absurd h1.symm hrc
      | (subst h2; simp [List.erase_cons, List.count_cons])

/-- When the handle record itself cannot be allocated, `lsmWindowsOsOpen`
returns `LSM_NOMEM` and the live resources are those before the call. -/
theorem lsmWindowsOsOpen_no_record (env : OpenEnv) (live : List Resource)
    (hrec : env.recordOk = false) :
    lsmWindowsOsOpen env live = some (Rc.LSM_NOMEM, live) := by
  unfold lsmWindowsOsOpen
  rw [if_pos hrec]

/-- C13 (the code departs from the claim): starting with nothing live, a failed
path conversion returns `LSM_NOMEM` with the handle record and the
shared-memory record live; a failed file creation leaves the shared-memory
record and the converted path live; a failed name-copy allocation or mutex
creation leaves the shared-memory record live; and a failed shared-memory
record allocation is a null dereference. -/
theorem lsmWindowsOsOpen_leaks_on_failure :
    lsmWindowsOsOpen ⟨true, true, false, true, false, true, true⟩ []
      = some (Rc.LSM_NOMEM, [Resource.shmRecord, Resource.handleRecord]) ∧
    lsmWindowsOsOpen ⟨true, true, true, false, true, true, true⟩ []
      = some (Rc.LSM_IOERR_NOENT, [Resource.zName, Resource.shmRecord]) ∧
    lsmWindowsOsOpen ⟨true, true, true, true, false, false, true⟩ []
      = some (Rc.LSM_NOMEM, [Resource.shmRecord]) ∧
    lsmWindowsOsOpen ⟨true, true, true, true, false, true, false⟩ []
      = some (Rc.LSM_IOERR, [Resource.shmRecord]) ∧
    lsmWindowsOsOpen ⟨true, false, true, true, false, true, true⟩ [] = none := by
  decide

/-- A handle record without a shared-memory record cannot be closed:
`lsmWindowsOsShmUnmap` reads through the null `pShm`. -/
theorem lsmWindowsOsClose_null_pShm (p : WindowsFileRec) (h : p.pShm = none) :
    lsmWindowsOsClose p = none := by
  unfold lsmWindowsOsClose lsmWindowsOsShmUnmap
  cases hz : p.zName <;> simp [h]

/-- A handle record with a path and a shared-memory record, whatever they
hold, is closed with `LSM_OK`. -/
theorem lsmWindowsOsClose_ok (p : WindowsFileRec) (hz : p.zName.isSome = true)
    (hs : p.pShm.isSome = true) :
    (lsmWindowsOsClose p).map (fun r => r.1) = some Rc.LSM_OK := by
  unfold lsmWindowsOsClose lsmWindowsOsShmUnmap
  cases h1 : p.zName with
  | none => simp [h1] at hz
  | some len =>
    cases h2 : p.pShm with
    | none => simp [h2] at hs
    | some s => simp

/-- C14 (the code departs from the claim): closing a handle record whose
`pShm` is null dereferences the null pointer, while the same record with a
zeroed shared-memory record (no companion file, no segments) is closed with
`LSM_OK`. -/
theorem lsmWindowsOsClose_dereferences_null_pShm :
    (lsmWindowsOsClose { freshHandle (HANDLE.obj 1) 7 with pShm := none }).isNone = true ∧
    (lsmWindowsOsClose (freshHandle (HANDLE.obj 1) 7)).map (fun r => r.1) = some Rc.LSM_OK := by
  decide

/-- The buffer `pBuf` comes back from `lsmWindowsOsFileid` exactly as it went
in. -/
theorem lsmWindowsOsFileid_pBuf_untouched (sz : Nat) (p : WindowsFile) (pBuf : Option Buffer)
    (pnBuf : Buffer) (r : Rc × Option Buffer × Buffer)
    (h : lsmWindowsOsFileid sz p pBuf pnBuf = some r) :
    r.2.1 = pBuf := by
  unfold lsmWindowsOsFileid at h
  cases pBuf with
  | none =>
    simp only [Option.some.injEq] at h
    rw [← h]
  | some b =>
    simp only [] at h
    split at h
    · exact absurd h (by simp)
    · simp only [Option.some.injEq] at h
      rw [← h]

/-- C15 (the code departs from the claim): for an 8-byte `HANDLE` with value
4660, a buffer `pBuf` filled with 9 and `*pnBuf = 8`, `lsmWindowsOsFileid`
returns `LSM_OK`, leaves the eight bytes of `pBuf` at 9 and leaves `*pnBuf`
at 4660, the low half of the handle. -/
theorem lsmWindowsOsFileid_writes_pnBuf :
    (lsmWindowsOsFileid 8 ⟨HANDLE.obj 4660, false, 0, 0⟩ (some fun _ => 9)
        (writeInt32 (fun _ => 0) 8)).map
      (fun r => (r.1, r.2.1.map (fun b => bufferBytes b 8), readInt32 r.2.2))
      = some (Rc.LSM_OK, some [9, 9, 9, 9, 9, 9, 9, 9], 4660) ∧
    readInt32 (writeInt32 (fun _ => 0) 8) = 8 ∧
    leBytes (handleBits 8 (HANDLE.obj 4660)) 8 = [52, 18, 0, 0, 0, 0, 0, 0] := by
  decide

end LsmWindows
